import Mathlib

/-!
Verification of the query-orchestration engine of the AI Financial Search
repository (`Nexevonai/latestaifinance`).

The repository ships the Next.js client (`frontend/src/app/page.tsx`), the
README and provider API documentation; the FastAPI backend (classifier,
planner, execution coordinator, caches, session store) is not part of the
source tree.  The client is embedded directly from `page.tsx`; the backend
components are modelled from the specification, and each such definition is
marked `Modelled from the spec:` in its doc comment.
-/

/-! ## Shared data model -/

/-- A cited source, a title/url pair as in the client's `Source` interface
(`page.tsx` lines 9-12); both fields are optional in the TypeScript type. -/
structure Source where
  title : Option String
  url : Option String
deriving DecidableEq, Repr

/-- A stream event as consumed by the client and produced by the backend:
tagged variant with `status`, `result` and `error`, each optionally carrying
a session id (spec section 3, `StreamEvent`; `page.tsx` lines 125-154 read
`type`, `content`, `sources`, `session_id`). -/
inductive StreamEvent where
  | status (content : String) (session_id : Option String)
  | result (content : String) (sources : List Source) (session_id : Option String)
  | error (content : String) (session_id : Option String)
deriving DecidableEq, Repr

/-- `true` exactly on `status` events. -/
def StreamEvent.isStatus : StreamEvent → Bool
  | .status _ _ => true
  | _ => false

/-- `true` exactly on `result` events. -/
def StreamEvent.isResult : StreamEvent → Bool
  | .result _ _ _ => true
  | _ => false

/-- `true` exactly on `error` events. -/
def StreamEvent.isError : StreamEvent → Bool
  | .error _ _ => true
  | _ => false

/-- `true` on the terminal events of the protocol: `result` or `error`. -/
def StreamEvent.isTerminal (e : StreamEvent) : Bool :=
  e.isResult || e.isError

/-! ## Client model (embedded from `frontend/src/app/page.tsx`) -/

/-- JavaScript's `String.prototype.trim`: whitespace stripped from both
ends (used by the empty-query guard, `page.tsx` line 56). -/
def trimString (s : String) : String :=
  String.mk (((s.data.dropWhile (·.isWhitespace)).reverse.dropWhile
    (·.isWhitespace)).reverse)

/-- The client's mode radio selection: `'sonar'` or `'deep_research'`
(`page.tsx` line 23). -/
inductive Mode where
  | sonar
  | deep_research
deriving DecidableEq, Repr

/-- The client's `SearchResult` interface (`page.tsx` lines 14-19); `answer`
is optional here because the non-streaming handler copies the parsed JSON
object whole, and an error-tagged response has no `answer` field. -/
structure SearchResult where
  answer : Option String
  sources : List Source
  session_id : Option String
deriving DecidableEq, Repr

/-- One entry of the client's `conversationHistory` state
(`page.tsx` line 30): a `(query, answer)` pair; `answer` is `none` when the
appended response object had no `answer` field. -/
structure Turn where
  query : String
  answer : Option String
deriving DecidableEq, Repr

/-- The React state of the `Home` component relevant to the orchestration
protocol (`page.tsx` lines 22-31). -/
structure ClientState where
  query : String
  mode : Mode
  loading : Bool
  result : Option SearchResult
  error : String
  statusMessages : List String
  sessionId : Option String
  conversationHistory : List Turn
  showDeepResearchConfirm : Bool
deriving DecidableEq, Repr

/-- The session-id update performed on every event:
`if (data.session_id && !sessionId) setSessionId(data.session_id)`
(`page.tsx` lines 128-130, 138-140, 150-152, 179-181).  `sid0` is the value
of the `sessionId` closure variable captured when `handleSubmit` was
created, `evSid` the event's `session_id` field, `cur` the current state. -/
def applySessionId (sid0 evSid cur : Option String) : Option String :=
  match evSid, sid0 with
  | some s, none => some s
  | _, _ => cur

/-- Processing of one parsed stream event inside the reader loop of
`handleSubmit` (`page.tsx` lines 125-154).  `q` is the submitted query text
captured by the closure, `sid0` the captured `sessionId`. -/
def processEvent (q : String) (sid0 : Option String) (s : ClientState) :
    StreamEvent → ClientState
  | .status c evSid =>
      { s with statusMessages := s.statusMessages ++ [c],
               sessionId := applySessionId sid0 evSid s.sessionId }
  | .result c srcs evSid =>
      { s with result := some ⟨some c, srcs, evSid⟩,
               sessionId := applySessionId sid0 evSid s.sessionId,
               conversationHistory := s.conversationHistory ++ [⟨q, some c⟩],
               loading := false }
  | .error c evSid =>
      { s with error := c,
               sessionId := applySessionId sid0 evSid s.sessionId,
               loading := false }

/-- Classification of one line of the newline-delimited body, abstracting
`line.trim()` emptiness and `JSON.parse` (`page.tsx` lines 119-123):
a line is blank, fails to parse as JSON, or parses to a stream event. -/
inductive ParsedLine where
  | blank
  | malformed (raw : String)
  | event (e : StreamEvent)
deriving DecidableEq, Repr

/-- `true` when the line carries a `result` event. -/
def ParsedLine.isResultLine : ParsedLine → Bool
  | .event e => e.isResult
  | _ => false

/-- `true` when the line carries a terminal (`result` or `error`) event. -/
def ParsedLine.isTerminalLine : ParsedLine → Bool
  | .event e => e.isTerminal
  | _ => false

/-- The body of the `for (const line of lines)` loop (`page.tsx` lines
119-158): a blank line is skipped (`continue`), a malformed line is only
logged to the console (`catch` at line 155) and leaves the state unchanged,
and a well-formed line is dispatched on its `type`. -/
def processLine (q : String) (sid0 : Option String) (s : ClientState) :
    ParsedLine → ClientState
  | .blank => s
  | .malformed _ => s
  | .event e => processEvent q sid0 s e

/-- The reader loop over all complete lines of the streamed body, in
arrival order (`page.tsx` lines 109-159). -/
def processLines (q : String) (sid0 : Option String) (s : ClientState)
    (ls : List ParsedLine) : ClientState :=
  ls.foldl (processLine q sid0) s

/-- Modelled from the spec: the non-streaming response object (spec
section 6 delivers both answers and failures through the same channel,
"tagged distinctly"); the backend code is not in the source tree.
`isErrorTagged` records the distinct error tag; an error-tagged response
carries no `answer` field (`answer = none`).  The client's non-streaming
handler (`page.tsx` lines 175-189) reads only `answer`, `sources` and
`session_id` and never inspects the tag. -/
structure NonStreamingResponse where
  answer : Option String
  sources : List Source
  session_id : Option String
  isErrorTagged : Bool
deriving DecidableEq, Repr

/-- The non-streaming branch of `handleSubmit` after `response.json()`
resolves (`page.tsx` lines 175-189): store the parsed object as the result,
maybe store the session id, append a conversation turn, clear `loading`.
The append is unconditional: it does not depend on `resp.isErrorTagged`. -/
def handleNonStreaming (q : String) (sid0 : Option String)
    (resp : NonStreamingResponse) (s : ClientState) : ClientState :=
  { s with result := some ⟨resp.answer, resp.sources, resp.session_id⟩,
           sessionId := applySessionId sid0 resp.session_id s.sessionId,
           conversationHistory := s.conversationHistory ++ [⟨q, resp.answer⟩],
           loading := false }

/-- The `catch` block of `handleSubmit` (`page.tsx` lines 191-197): an
`AbortError` only clears `loading`; any other fetch failure additionally
sets the user-visible error message. -/
def handleFetchError (isAbortError : Bool) (s : ClientState) : ClientState :=
  if isAbortError then { s with loading := false }
  else { s with error := "An error occurred while searching. Please try again.",
                loading := false }

/-- The request body sent by `handleSubmit` (`page.tsx` lines 93-97 and
167-171): the query text, the mode and the captured session id. -/
structure SearchRequest where
  query : String
  mode : Mode
  session_id : Option String
deriving DecidableEq, Repr

/-- The state reset performed by `handleSubmit` once it decides to proceed
(`page.tsx` lines 68-75): the confirmation flag is cleared, `loading` is
set, and `error`, `result` and `statusMessages` are cleared.  The
conversation history is not touched. -/
def resetForSubmit (s : ClientState) : ClientState :=
  { s with showDeepResearchConfirm := false, loading := true, error := "",
           result := none, statusMessages := [] }

/-- The synchronous gate of `handleSubmit` before any network activity
(`page.tsx` lines 53-83): an empty query sets an error and stops; a
deep-research submission whose confirmation dialog has not been shown only
shows the dialog and stops; otherwise the state is reset and the request is
dispatched.  The second component is the request sent, `none` when no fetch
is issued. -/
def handleSubmitStart (s : ClientState) : ClientState × Option SearchRequest :=
  if trimString s.query = "" then
    ({ s with error := "Please enter a search query" }, none)
  else if s.mode = Mode.deep_research ∧ s.showDeepResearchConfirm = false then
    ({ s with showDeepResearchConfirm := true }, none)
  else
    (resetForSubmit s, some ⟨s.query, s.mode, s.sessionId⟩)

/-- `handleCancelDeepResearch` (`page.tsx` lines 200-203): hide the dialog
and fall back to sonar mode. -/
def handleCancelDeepResearch (s : ClientState) : ClientState :=
  { s with showDeepResearchConfirm := false, mode := Mode.sonar }

/-! ## Backend model (modelled from the spec; the backend is not in the
source tree) -/

/-- Modelled from the spec: the cost class of a capability, `{cheap,
expensive}` (spec section 3, `Capability`). -/
inductive CostClass where
  | cheap
  | expensive
deriving DecidableEq, Repr

/-- Modelled from the spec: a callable data capability of the Capability
Registry — identifier, cost class and declared input schema (spec
sections 2 and 3).  The input schema is embedded as its validation
predicate over parameter lists. -/
structure Capability where
  id : String
  cost : CostClass
  validParams : List (String × String) → Bool

/-- Modelled from the spec: the Capability Registry, a static catalog of
capabilities looked up by identifier only (spec section 3). -/
def Registry := List Capability

/-- Modelled from the spec: one planned call, a (capability id, parameters)
pair (spec section 3, `Plan`). -/
structure CapCall where
  capId : String
  params : List (String × String)
deriving DecidableEq, Repr

/-- Modelled from the spec: the provenance tag of a plan,
`{fast_path, llm_planned}` (spec section 3). -/
inductive Provenance where
  | fast_path
  | llm_planned
deriving DecidableEq, Repr

/-- Modelled from the spec: a plan — ordered calls plus provenance (spec
section 3). -/
structure Plan where
  calls : List CapCall
  provenance : Provenance
deriving DecidableEq, Repr

/-- Splitting a character list on whitespace, keeping maximal runs of
non-whitespace characters as words. -/
def wordsOf : List Char → List (List Char)
  | [] => []
  | c :: cs =>
    if c.isWhitespace then wordsOf cs
    else
      match wordsOf cs with
      | [] => [[c]]
      | w :: ws => if cs.head?.any (fun d => !d.isWhitespace)
                   then (c :: w) :: ws else [c] :: w :: ws

/-- Joining words with single spaces. -/
def joinWords : List (List Char) → List Char
  | [] => []
  | [w] => w
  | w :: ws => w ++ ' ' :: joinWords ws

/-- Modelled from the spec: query-text normalization used for matching and
cache keys — case-fold, trim, whitespace-collapse (spec section 4.5). -/
def normalizeQuery (q : String) : String :=
  String.mk (joinWords (wordsOf (q.data.map Char.toLower)))

/-- Modelled from the spec: one fast-path intent matcher — a lexical
matcher over the normalized query, the fixed cheap capability it maps to,
and the parameter builder from the extracted ticker (spec section 4.1). -/
structure Intent where
  fires : String → Bool
  cap : Capability
  mkParams : String → List (String × String)

/-- Modelled from the spec: the fixed one-call plan of a fast-path intent
for an extracted ticker (spec section 4.1). -/
def Intent.fixedPlan (i : Intent) (ticker : String) : Plan :=
  ⟨[⟨i.cap.id, i.mkParams ticker⟩], Provenance.fast_path⟩

/-- Modelled from the spec: the fast-path classifier,
`classify(query_text) -> Plan | None` (spec section 4.1): ticker extraction
failure is a miss; otherwise the first intent whose matcher fires on the
normalized query yields its fixed one-capability plan. -/
def classify (intents : List Intent) (extractTicker : String → Option String)
    (q : String) : Option Plan :=
  match extractTicker q with
  | none => none
  | some t =>
    match intents.find? (fun i => i.fires (normalizeQuery q)) with
    | none => none
    | some i => some (i.fixedPlan t)

/-- Modelled from the spec: validation of one model-proposed call against
the Capability Registry (spec section 4.2): the capability name must be in
the registry and the parameters must pass its input schema. -/
def validateCall (registry : Registry) (c : CapCall) : Bool :=
  match List.find? (fun cap => cap.id = c.capId) registry with
  | some cap => cap.validParams c.params
  | none => false

/-- Modelled from the spec: the default single "search" capability call the
planner falls back to when the validated set is empty (spec section 4.2). -/
def defaultSearchCall (q : String) : CapCall :=
  ⟨"search", [("query", q)]⟩

/-- Modelled from the spec: plan construction from the reasoning model's
proposed calls (spec section 4.2): invalid proposals are dropped, never
fatal; an empty validated set falls back to the default search call. -/
def planFromModel (registry : Registry) (q : String)
    (proposed : List CapCall) : Plan :=
  let validated := proposed.filter (validateCall registry)
  if validated.isEmpty then ⟨[defaultSearchCall q], Provenance.llm_planned⟩
  else ⟨validated, Provenance.llm_planned⟩

/-- Modelled from the spec: the routing decision for one query — the chosen
plan, whether the planner/reasoning model was invoked, and whether the
fast-path classifier was consulted.  `proposed` stands for the reasoning
model's output, an external collaborator (spec section 6). -/
structure RouteOutcome where
  plan : Plan
  plannerInvoked : Bool
  classifierConsulted : Bool

/-- Modelled from the spec: the per-query routing (spec sections 2 and 9):
deep-research mode unconditionally bypasses the classifier and goes
straight to planning; otherwise a classifier hit skips planning and a miss
falls through to the planner. -/
def route (intents : List Intent) (extractTicker : String → Option String)
    (registry : Registry) (mode : Mode) (q : String)
    (proposed : List CapCall) : RouteOutcome :=
  match mode with
  | Mode.deep_research => ⟨planFromModel registry q proposed, true, false⟩
  | Mode.sonar =>
    match classify intents extractTicker q with
    | some p => ⟨p, false, true⟩
    | none => ⟨planFromModel registry q proposed, true, true⟩

/-- Modelled from the spec: a successful capability payload — raw text plus
any extractable title/url sources (spec sections 4.3 and 4.4). -/
structure Payload where
  text : String
  sources : List Source
deriving DecidableEq, Repr

/-- Modelled from the spec: `CapabilityResult` — capability id, parameters,
payload or error, success flag (spec section 3). -/
structure CapabilityResult where
  capId : String
  params : List (String × String)
  payload : Option Payload
  errMsg : Option String
  success : Bool
deriving DecidableEq, Repr

/-- Modelled from the spec: the recording of one dispatched call's outcome
(spec section 4.3): a failure (timeout, error response) becomes a
`CapabilityResult` with `success = false`; a success carries the payload.
`outcome` stands for the external provider collaborator
(`call(params) -> payload | fails with ProviderError`, spec section 6). -/
def runCall (outcome : CapCall → Except String Payload) (c : CapCall) :
    CapabilityResult :=
  match outcome c with
  | .ok p => ⟨c.capId, c.params, some p, none, true⟩
  | .error e => ⟨c.capId, c.params, none, some e, false⟩

/-- Modelled from the spec: `execute(plan)` — every planned call is
dispatched and yields exactly one result; a failing call cancels no sibling
(spec section 4.3). -/
def execute (outcome : CapCall → Except String Payload) (p : Plan) :
    List CapabilityResult :=
  p.calls.map (runCall outcome)

/-- The successful results among a coordinator output. -/
def successfulResults (rs : List CapabilityResult) : List CapabilityResult :=
  rs.filter (·.success)

/-- Modelled from the spec: the source citations assembled for the answer,
tagged with the capability each one came from — extracted from successful
payloads only (spec section 4.4). -/
def citations (rs : List CapabilityResult) : List (String × Source) :=
  (successfulResults rs).flatMap
    (fun r => ((r.payload.map (·.sources)).getD []).map (fun s => (r.capId, s)))

/-- Modelled from the spec: the `status` events emitted before dispatch, in
initiation order (spec section 4.3). -/
def statusEvents (p : Plan) (sid : Option String) : List StreamEvent :=
  p.calls.map (fun c => StreamEvent.status ("Calling provider " ++ c.capId) sid)

/-- Modelled from the spec: the full event stream of one executed query and
whether synthesis was attempted. -/
structure QueryOutput where
  events : List StreamEvent
  synthesized : Bool

/-- Modelled from the spec: execution and synthesis of one plan (spec
sections 4.3, 4.4 and 7): if every capability failed, a terminal `error`
event is emitted and no synthesis is attempted; otherwise the synthesizer
(`synth`, standing for the reasoning model) runs over the successful
results only and a terminal `result` event carries the answer and the
citation sources. -/
def runPlan (outcome : CapCall → Except String Payload)
    (synth : List CapabilityResult → String) (p : Plan)
    (sid : Option String) : QueryOutput :=
  let rs := execute outcome p
  if rs.all (fun r => !r.success) then
    ⟨statusEvents p sid ++ [StreamEvent.error "All capabilities failed" sid], false⟩
  else
    ⟨statusEvents p sid ++
      [StreamEvent.result (synth (successfulResults rs))
        ((citations rs).map (·.2)) sid], true⟩

/-- The protocol shape of spec section 3: zero or more `status` events
followed by exactly one terminal `result` or `error` event, with nothing
after the terminal one. -/
def ValidStream (evts : List StreamEvent) : Prop :=
  ∃ pre t, evts = pre ++ [t] ∧ (∀ e ∈ pre, e.isStatus = true) ∧
    t.isTerminal = true

/-! ## Cache model (modelled from the spec) -/

/-- Modelled from the spec: `CacheEntry` — value plus expiry instant (spec
section 3). -/
structure CacheEntry (V : Type) where
  value : V
  expiry : Nat
deriving DecidableEq, Repr

/-- Modelled from the spec: the backing key-value store of the plan and
result caches, an association list (spec sections 4.5 and 9). -/
def CacheStore (K V : Type) := List (K × CacheEntry V)

/-- Modelled from the spec: `get(key)` at instant `now` (spec sections 3
and 4.5): an absent key is a miss; a present entry whose expiry has passed
is a miss and is lazily evicted; otherwise the value is returned.  The
second component is the store after lazy eviction. -/
def cacheGet [DecidableEq K] (store : CacheStore K V) (k : K) (now : Nat) :
    Option V × CacheStore K V :=
  match List.find? (fun p => p.1 = k) store with
  | none => (none, store)
  | some e =>
    if now < e.2.expiry then (some e.2.value, store)
    else (none, List.filter (fun p => p.1 ≠ k) store)

/-- Modelled from the spec: `put(key, value, ttl)` at instant `now` (spec
section 4.5). -/
def cachePut [DecidableEq K] (store : CacheStore K V) (k : K) (v : V)
    (ttl now : Nat) : CacheStore K V :=
  (k, ⟨v, now + ttl⟩) :: List.filter (fun p => p.1 ≠ k) store

/-- Modelled from the spec: a possibly unavailable cache store (spec
sections 6 and 7): `none` models `CacheUnavailable`. -/
def cacheGetSafe [DecidableEq K] (store : Option (CacheStore K V)) (k : K)
    (now : Nat) : Option V × Option (CacheStore K V) :=
  match store with
  | none => (none, none)
  | some st =>
    let r := cacheGet st k now
    (r.1, some r.2)

/-- Modelled from the spec: a cached lookup that falls through to live
computation on a miss (spec sections 4.5 and 7): any miss — absent key,
expired entry, or unavailable store — yields the live value `live`; the
operation is total and has no failure case. -/
def getOrCompute [DecidableEq K] (store : Option (CacheStore K V)) (k : K)
    (now : Nat) (live : V) (ttl : Nat) : V × Option (CacheStore K V) :=
  match cacheGetSafe store k now with
  | (some v, st) => (v, st)
  | (none, none) => (live, none)
  | (none, some st) => (live, some (cachePut st k live ttl now))

/-! ## Concrete instances (modelled from the spec and README examples) -/

/-- `true` when `pat` is an initial segment of `cs`. -/
def startsWithList : List Char → List Char → Bool
  | _, [] => true
  | [], _ :: _ => false
  | c :: cs, p :: ps => c = p && startsWithList cs ps

/-- `true` when `pat` occurs as a contiguous segment of `cs`. -/
def containsList (pat : List Char) : List Char → Bool
  | [] => startsWithList [] pat
  | c :: cs => startsWithList (c :: cs) pat || containsList pat cs

/-- `true` when `pat` occurs as a substring of `s`. -/
def containsSub (s pat : String) : Bool :=
  containsList pat.data s.data

/-- Letters of a token, dropping punctuation (spec section 4.1: matching
tolerates punctuation variance). -/
def cleanToken (t : List Char) : List Char :=
  t.filter (·.isAlpha)

/-- Modelled from the spec: a token shaped like a ticker symbol — one to
five uppercase letters. -/
def isTickerToken (t : List Char) : Bool :=
  decide (1 ≤ t.length) && decide (t.length ≤ 5) && t.all (·.isUpper)

/-- Modelled from the spec: ticker-symbol extraction (spec section 4.1):
exactly one ticker-shaped token yields that symbol; a missing symbol or an
ambiguous one (several candidates) yields `none`. -/
def extractTicker (q : String) : Option String :=
  match ((wordsOf q.data).map cleanToken).filter isTickerToken with
  | [t] => some (String.mk t)
  | _ => none

/-- Modelled from the spec: the real-time search capability (cheap;
parameters must carry the query text). -/
def searchCapability : Capability :=
  ⟨"search", CostClass.cheap, fun ps => ps.any (fun p => p.1 = "query")⟩

/-- Modelled from the spec: the deep-research capability (expensive). -/
def deepResearchCapability : Capability :=
  ⟨"deep_research", CostClass.expensive, fun ps => ps.any (fun p => p.1 = "query")⟩

/-- Modelled from the spec: the price-history capability (cheap;
parameters must carry a ticker). -/
def priceCapability : Capability :=
  ⟨"price_history", CostClass.cheap, fun ps => ps.any (fun p => p.1 = "ticker")⟩

/-- Modelled from the spec: the company-news capability (cheap). -/
def newsCapability : Capability :=
  ⟨"news", CostClass.cheap, fun ps => ps.any (fun p => p.1 = "ticker")⟩

/-- Modelled from the spec: the insider-trades capability (cheap). -/
def insiderCapability : Capability :=
  ⟨"insider_trades", CostClass.cheap, fun ps => ps.any (fun p => p.1 = "ticker")⟩

/-- Modelled from the spec: the company-filings capability (expensive). -/
def filingsCapability : Capability :=
  ⟨"company_filings", CostClass.expensive, fun ps => ps.any (fun p => p.1 = "ticker")⟩

/-- Modelled from the spec: the Capability Registry instance covering the
providers named in the README (search, deep research, prices, news,
insider trades, filings). -/
def capabilityRegistry : Registry :=
  [searchCapability, deepResearchCapability, priceCapability, newsCapability,
   insiderCapability, filingsCapability]

/-- Modelled from the spec: the "price of TICKER" fast-path intent. -/
def priceIntent : Intent :=
  ⟨fun s => containsSub s "price of", priceCapability, fun t => [("ticker", t)]⟩

/-- Modelled from the spec: the "latest news for TICKER" fast-path intent. -/
def newsIntent : Intent :=
  ⟨fun s => containsSub s "latest news", newsCapability, fun t => [("ticker", t)]⟩

/-- Modelled from the spec: the "insider trades for TICKER" fast-path
intent. -/
def insiderIntent : Intent :=
  ⟨fun s => containsSub s "insider trades", insiderCapability, fun t => [("ticker", t)]⟩

/-- Modelled from the spec: the ordered fast-path intent list (spec
section 4.1). -/
def fastPathIntents : List Intent := [priceIntent, newsIntent, insiderIntent]

/-! ## Concrete inputs used by the witnesses -/

/-- A client state as first rendered (`page.tsx` lines 22-31: empty query,
sonar mode, nothing loaded). -/
def initialClientState : ClientState :=
  ⟨"", Mode.sonar, false, none, "", [], none, [], false⟩

/-- A two-call plan used to exercise the coordinator. -/
def demoPlan : Plan :=
  ⟨[⟨"price_history", [("ticker", "AAPL")]⟩, ⟨"news", [("ticker", "AAPL")]⟩],
   Provenance.llm_planned⟩

/-- A provider outcome on which every call fails. -/
def failingOutcome : CapCall → Except String Payload :=
  fun _ => Except.error "provider timeout"

/-- A provider outcome on which price history succeeds (with one source)
and every other capability fails. -/
def mixedOutcome : CapCall → Except String Payload :=
  fun c =>
    if c.capId = "price_history" then
      Except.ok ⟨"AAPL 187.2", [⟨some "Price", some "https://example.com/p"⟩]⟩
    else Except.error "provider timeout"

/-- A trivial synthesizer standing in for the reasoning model. -/
def demoSynth : List CapabilityResult → String :=
  fun rs => String.intercalate "; " (rs.map (fun r => (r.payload.map (·.text)).getD ""))

/-- A backend error response on the non-streaming channel, tagged as an
error and therefore carrying no `answer` field. -/
def errorTaggedResponse : NonStreamingResponse :=
  ⟨none, [], some "sess-1", true⟩

/-! ## Helper lemmas -/

/-- Every event emitted before dispatch is a `status` event. -/
theorem statusEvents_isStatus (p : Plan) (sid : Option String) :
    ∀ e ∈ statusEvents p sid, e.isStatus = true := by
  intro e he
  simp only [statusEvents, List.mem_map] at he
  obtain ⟨c, -, rfl⟩ := he
  rfl

/-- A predicate false on `status` events counts zero among the pre-dispatch
events. -/
theorem statusEvents_countP_zero (p : Plan) (sid : Option String)
    (f : StreamEvent → Bool) (hf : ∀ c s, f (StreamEvent.status c s) = false) :
    (statusEvents p sid).countP f = 0 := by
  rw [List.countP_eq_zero]
  intro e he
  simp only [statusEvents, List.mem_map] at he
  obtain ⟨c, -, rfl⟩ := he
  simp [hf]

/-- The recorded result of a call keeps the call's capability id. -/
theorem runCall_capId (outcome : CapCall → Except String Payload)
    (c : CapCall) : (runCall outcome c).capId = c.capId := by
  unfold runCall
  cases outcome c <;> rfl

/-- The coordinator's results carry exactly the planned capability ids, in
order. -/
theorem execute_map_capId (outcome : CapCall → Except String Payload)
    (p : Plan) :
    (execute outcome p).map (·.capId) = p.calls.map (·.capId) := by
  unfold execute
  rw [List.map_map]
  exact List.map_congr_left (fun c _ => runCall_capId outcome c)

/-- Every citation originates from a successful result. -/
theorem mem_citations (rs : List CapabilityResult) :
    ∀ pr ∈ citations rs, ∃ r ∈ rs, r.success = true ∧ pr.1 = r.capId := by
  intro pr hpr
  simp only [citations, List.mem_flatMap] at hpr
  obtain ⟨r, hr, hpr⟩ := hpr
  obtain ⟨hrs, hsucc⟩ := List.mem_filter.mp hr
  simp only [List.mem_map] at hpr
  obtain ⟨src, -, rfl⟩ := hpr
  exact ⟨r, hrs, hsucc, rfl⟩

/-! ## Claims -/

/-- C1: for every executed query, the emitted stream is zero or more
`status` events followed by exactly one terminal `result` or `error` event
with nothing after it, and the client-side reader processes the delivered
lines in exactly arrival order (processing a concatenation equals
processing the first part and then the second, one line at a time). -/
theorem stream_shape_and_arrival_order :
    (∀ (outcome : CapCall → Except String Payload)
       (synth : List CapabilityResult → String) (p : Plan)
       (sid : Option String), ValidStream (runPlan outcome synth p sid).events) ∧
    (∀ q sid0 s ls₁ ls₂, processLines q sid0 s (ls₁ ++ ls₂) =
        processLines q sid0 (processLines q sid0 s ls₁) ls₂) ∧
    (∀ q sid0 s l, processLines q sid0 s [l] = processLine q sid0 s l) := by
  refine ⟨?_, ?_, fun _ _ _ _ => rfl⟩
  · intro outcome synth p sid
    by_cases h : (execute outcome p).all (fun r => !r.success) = true
    · exact ⟨statusEvents p sid, StreamEvent.error "All capabilities failed" sid,
        by simp [runPlan, h], statusEvents_isStatus p sid, rfl⟩
    · exact ⟨statusEvents p sid,
        StreamEvent.result (synth (successfulResults (execute outcome p)))
          ((citations (execute outcome p)).map (·.2)) sid,
        by simp [runPlan, h], statusEvents_isStatus p sid, rfl⟩
  · intro q sid0 s ls₁ ls₂
    exact List.foldl_append _ _ _ _

/-- C2: for every plan in which every dispatched capability call fails, the
emitted stream holds exactly one `error` event and zero `result` events,
and synthesis is not attempted. -/
theorem all_failed_single_error_no_synthesis
    (outcome : CapCall → Except String Payload)
    (synth : List CapabilityResult → String) (p : Plan) (sid : Option String)
    (h : (execute outcome p).all (fun r => !r.success) = true) :
    (runPlan outcome synth p sid).events.countP (·.isError) = 1 ∧
    (runPlan outcome synth p sid).events.countP (·.isResult) = 0 ∧
    (runPlan outcome synth p sid).synthesized = false := by
  have hev : (runPlan outcome synth p sid).events =
      statusEvents p sid ++ [StreamEvent.error "All capabilities failed" sid] := by
    simp [runPlan, h]
  refine ⟨?_, ?_, by simp [runPlan, h]⟩
  · rw [hev, List.countP_append,
      statusEvents_countP_zero p sid _ (fun _ _ => rfl)]
    rfl
  · rw [hev, List.countP_append,
      statusEvents_countP_zero p sid _ (fun _ _ => rfl)]
    rfl

/-- Witness for C2 at a concrete two-call plan on which every provider
fails. -/
theorem all_failed_single_error_no_synthesis_witness :
    (runPlan failingOutcome demoSynth demoPlan none).events.countP (·.isError) = 1 ∧
    (runPlan failingOutcome demoSynth demoPlan none).events.countP (·.isResult) = 0 ∧
    (runPlan failingOutcome demoSynth demoPlan none).synthesized = false :=
  all_failed_single_error_no_synthesis failingOutcome demoSynth demoPlan none
    (by decide)

/-- C3: for every plan (of pairwise-distinct capabilities) on which at
least one call succeeds and at least one fails — each failing call is
recorded as a `CapabilityResult` with `success = false`, every planned
call gets a result (no sibling is cancelled), the overall plan does not
fail (synthesis is attempted and the terminal event is a `result`),
synthesis consumes only the successful results, and no failed capability
appears among the source citations. -/
theorem partial_failure_synthesis
    (outcome : CapCall → Except String Payload)
    (synth : List CapabilityResult → String) (p : Plan) (sid : Option String)
    (hnd : (p.calls.map (·.capId)).Nodup)
    (hsucc : (execute outcome p).any (·.success) = true)
    (_hfail : (execute outcome p).any (fun r => !r.success) = true) :
    (execute outcome p).length = p.calls.length ∧
    (∀ c ∈ p.calls, runCall outcome c ∈ execute outcome p) ∧
    (∀ c ∈ p.calls, ∀ e, outcome c = Except.error e →
        runCall outcome c = ⟨c.capId, c.params, none, some e, false⟩) ∧
    (runPlan outcome synth p sid).synthesized = true ∧
    (runPlan outcome synth p sid).events = statusEvents p sid ++
      [StreamEvent.result (synth (successfulResults (execute outcome p)))
        ((citations (execute outcome p)).map (·.2)) sid] ∧
    (∀ r ∈ execute outcome p, r.success = false →
        ∀ pr ∈ citations (execute outcome p), pr.1 ≠ r.capId) := by
  have hall : ((execute outcome p).all (fun r => !r.success)) = false := by
    obtain ⟨r, hr, hrs⟩ := List.any_eq_true.mp hsucc
    cases hb : (execute outcome p).all (fun r => !r.success) with
    | false => rfl
    | true =>
      have := List.all_eq_true.mp hb r hr
      rw [hrs] at this
      exact absurd this (by decide)
  have hmapid : (execute outcome p).map (·.capId) = p.calls.map (·.capId) :=
    execute_map_capId outcome p
  have hndr : ((execute outcome p).map (·.capId)).Nodup := by
    rw [hmapid]; exact hnd
  refine ⟨by simp [execute], ?_, ?_, by simp [runPlan, hall],
    by simp [runPlan, hall], ?_⟩
  · intro c hc
    exact List.mem_map_of_mem (runCall outcome) hc
  · intro c _ e he
    unfold runCall
    rw [he]
  · intro r hr hrf pr hpr heq
    obtain ⟨r', hr', hrs', hcap⟩ := mem_citations (execute outcome p) pr hpr
    have : r' = r :=
      List.inj_on_of_nodup_map hndr hr' hr (by rw [← hcap, ← heq])
    rw [this, hrf] at hrs'
    exact absurd hrs' (by decide)

/-- Witness for C3 at a concrete two-call plan on which price history
succeeds and news fails. -/
theorem partial_failure_synthesis_witness :
    (execute mixedOutcome demoPlan).length = demoPlan.calls.length ∧
    (∀ c ∈ demoPlan.calls, runCall mixedOutcome c ∈ execute mixedOutcome demoPlan) ∧
    (∀ c ∈ demoPlan.calls, ∀ e, mixedOutcome c = Except.error e →
        runCall mixedOutcome c = ⟨c.capId, c.params, none, some e, false⟩) ∧
    (runPlan mixedOutcome demoSynth demoPlan none).synthesized = true ∧
    (runPlan mixedOutcome demoSynth demoPlan none).events =
      statusEvents demoPlan none ++
      [StreamEvent.result (demoSynth (successfulResults (execute mixedOutcome demoPlan)))
        ((citations (execute mixedOutcome demoPlan)).map (·.2)) none] ∧
    (∀ r ∈ execute mixedOutcome demoPlan, r.success = false →
        ∀ pr ∈ citations (execute mixedOutcome demoPlan), pr.1 ≠ r.capId) :=
  partial_failure_synthesis mixedOutcome demoSynth demoPlan none
    (by decide) (by decide) (by decide)

/-- C4: when every fast-path intent maps to a cheap capability, a classify
hit returns the first matching intent's fixed one-call plan (tagged
`fast_path`) and routing in sonar mode uses it without invoking the
planner; ticker extraction failure (missing or ambiguous symbol) forces a
classify miss. -/
theorem fast_path_first_match
    (intents : List Intent) (extract : String → Option String)
    (registry : Registry) (q : String) (proposed : List CapCall)
    (hcheap : ∀ i ∈ intents, i.cap.cost = CostClass.cheap) :
    (∀ pl, classify intents extract q = some pl →
      ∃ t i, extract q = some t ∧
        intents.find? (fun j => j.fires (normalizeQuery q)) = some i ∧
        pl = i.fixedPlan t ∧ pl.calls.length = 1 ∧
        i.cap.cost = CostClass.cheap ∧
        pl.provenance = Provenance.fast_path ∧
        route intents extract registry Mode.sonar q proposed =
          ⟨pl, false, true⟩) ∧
    (extract q = none → classify intents extract q = none) := by
  constructor
  · intro pl hpl
    unfold classify at hpl
    cases hext : extract q with
    | none => rw [hext] at hpl; exact absurd hpl (by simp)
    | some t =>
      rw [hext] at hpl
      cases hfind : intents.find? (fun j => j.fires (normalizeQuery q)) with
      | none => rw [hfind] at hpl; exact absurd hpl (by simp)
      | some i =>
        rw [hfind] at hpl
        have hpl' : pl = i.fixedPlan t := (Option.some.injEq _ _ ▸ hpl).symm
        refine ⟨t, i, rfl, rfl, hpl', by rw [hpl']; rfl,
          hcheap i (List.mem_of_find?_eq_some hfind), by rw [hpl']; rfl, ?_⟩
        rw [hpl']
        simp [route, classify, hext, hfind]
  · intro h
    unfold classify
    rw [h]

/-- Witness for C4: the README's fast-path example query hits the price
intent, and an ambiguous-ticker query misses. -/
theorem fast_path_first_match_witness :
    (∃ t i, extractTicker "What is the current price of AAPL?" = some t ∧
      fastPathIntents.find?
        (fun j => j.fires (normalizeQuery "What is the current price of AAPL?")) =
        some i ∧
      priceIntent.fixedPlan "AAPL" = i.fixedPlan t ∧
      (priceIntent.fixedPlan "AAPL").calls.length = 1 ∧
      i.cap.cost = CostClass.cheap ∧
      (priceIntent.fixedPlan "AAPL").provenance = Provenance.fast_path ∧
      route fastPathIntents extractTicker capabilityRegistry Mode.sonar
        "What is the current price of AAPL?" [] =
        ⟨priceIntent.fixedPlan "AAPL", false, true⟩) ∧
    classify fastPathIntents extractTicker "Compare AAPL and MSFT fundamentals" =
      none := by
  have hcheap : ∀ i ∈ fastPathIntents, i.cap.cost = CostClass.cheap := by
    intro i hi
    simp only [fastPathIntents, List.mem_cons, List.not_mem_nil, or_false] at hi
    rcases hi with rfl | rfl | rfl <;> rfl
  constructor
  · exact (fast_path_first_match fastPathIntents extractTicker capabilityRegistry
      "What is the current price of AAPL?" [] hcheap).1
      (priceIntent.fixedPlan "AAPL") (by decide)
  · exact (fast_path_first_match fastPathIntents extractTicker capabilityRegistry
      "Compare AAPL and MSFT fundamentals" [] hcheap).2 (by decide)

/-- C5: every model-proposed call that is unknown to the registry or fails
its input schema is dropped without failing the query; every call of the
built plan validates; the plan is never empty, its calls come from the
proposal or are the default search call, and an empty validated set falls
back to exactly the default single search capability. -/
theorem planner_drops_invalid_and_defaults
    (registry : Registry) (q : String) (proposed : List CapCall)
    (hdef : validateCall registry (defaultSearchCall q) = true) :
    (∀ c ∈ proposed, validateCall registry c = false →
        c ∉ (planFromModel registry q proposed).calls) ∧
    (∀ c ∈ (planFromModel registry q proposed).calls,
        validateCall registry c = true) ∧
    (planFromModel registry q proposed).calls ≠ [] ∧
    (∀ c ∈ (planFromModel registry q proposed).calls,
        c = defaultSearchCall q ∨ c ∈ proposed) ∧
    (proposed.filter (validateCall registry) = [] →
        (planFromModel registry q proposed).calls = [defaultSearchCall q]) := by
  by_cases he : proposed.filter (validateCall registry) = []
  · have hcalls : (planFromModel registry q proposed).calls = [defaultSearchCall q] := by
      simp [planFromModel, he]
    refine ⟨?_, ?_, by rw [hcalls]; exact List.cons_ne_nil _ _, ?_, fun _ => hcalls⟩
    · intro c _ hcv hmem
      rw [hcalls] at hmem
      rcases List.mem_singleton.mp hmem with rfl
      rw [hdef] at hcv
      exact absurd hcv (by decide)
    · intro c hmem
      rw [hcalls] at hmem
      rcases List.mem_singleton.mp hmem with rfl
      exact hdef
    · intro c hmem
      rw [hcalls] at hmem
      exact Or.inl (List.mem_singleton.mp hmem)
  · have hcalls : (planFromModel registry q proposed).calls =
        proposed.filter (validateCall registry) := by
      simp [planFromModel, List.isEmpty_iff, he]
    refine ⟨?_, ?_, by rw [hcalls]; exact he, ?_, fun h => absurd h he⟩
    · intro c _ hcv hmem
      rw [hcalls] at hmem
      rw [(List.mem_filter.mp hmem).2] at hcv
      exact absurd hcv (by decide)
    · intro c hmem
      rw [hcalls] at hmem
      exact (List.mem_filter.mp hmem).2
    · intro c hmem
      rw [hcalls] at hmem
      exact Or.inr (List.mem_filter.mp hmem).1

/-- Witness for C5: a proposal containing one unknown capability and one
schema-violating call falls back to the default search capability. -/
theorem planner_drops_invalid_and_defaults_witness :
    (∀ c ∈ [CapCall.mk "bogus" [], CapCall.mk "news" []],
        validateCall capabilityRegistry c = false →
        c ∉ (planFromModel capabilityRegistry "what is tesla"
              [CapCall.mk "bogus" [], CapCall.mk "news" []]).calls) ∧
    (∀ c ∈ (planFromModel capabilityRegistry "what is tesla"
              [CapCall.mk "bogus" [], CapCall.mk "news" []]).calls,
        validateCall capabilityRegistry c = true) ∧
    (planFromModel capabilityRegistry "what is tesla"
        [CapCall.mk "bogus" [], CapCall.mk "news" []]).calls ≠ [] ∧
    (∀ c ∈ (planFromModel capabilityRegistry "what is tesla"
              [CapCall.mk "bogus" [], CapCall.mk "news" []]).calls,
        c = defaultSearchCall "what is tesla" ∨
        c ∈ [CapCall.mk "bogus" [], CapCall.mk "news" []]) ∧
    ([CapCall.mk "bogus" [], CapCall.mk "news" []].filter
        (validateCall capabilityRegistry) = [] →
      (planFromModel capabilityRegistry "what is tesla"
          [CapCall.mk "bogus" [], CapCall.mk "news" []]).calls =
        [defaultSearchCall "what is tesla"]) :=
  planner_drops_invalid_and_defaults capabilityRegistry "what is tesla"
    [CapCall.mk "bogus" [], CapCall.mk "news" []] (by decide)

/-- C6: a cache entry whose expiry instant has passed is a miss and is
lazily evicted by the lookup; a cached lookup over such a store falls
through to the live value; and an unavailable cache store is also treated
as a miss yielding the live value, with no failure case in the operation's
type — nothing is surfaced to the user. -/
theorem cache_expired_miss_evict_unavailable
    {K V : Type} [DecidableEq K]
    (store : CacheStore K V) (k : K) (pr0 : K × CacheEntry V)
    (now ttl : Nat) (live : V)
    (hfind : List.find? (fun pr => pr.1 = k) store = some pr0)
    (hexp : pr0.2.expiry ≤ now) :
    (cacheGet store k now).1 = none ∧
    (cacheGet store k now).2 = List.filter (fun pr => pr.1 ≠ k) store ∧
    (getOrCompute (some store) k now live ttl).1 = live ∧
    (getOrCompute (none : Option (CacheStore K V)) k now live ttl).1 = live := by
  have hc : cacheGet store k now =
      (none, List.filter (fun pr => pr.1 ≠ k) store) := by
    have hlt : ¬ now < pr0.2.expiry := by omega
    unfold cacheGet
    rw [hfind]
    simp [hlt]
  refine ⟨by rw [hc], by rw [hc], ?_, rfl⟩
  simp [getOrCompute, cacheGetSafe, hc]

/-- Witness for C6 at a concrete expired plan-cache entry. -/
theorem cache_expired_miss_evict_unavailable_witness :
    (cacheGet [("plan:aapl", CacheEntry.mk "cached-plan" 5)] "plan:aapl" 10).1 =
      none ∧
    (cacheGet [("plan:aapl", CacheEntry.mk "cached-plan" 5)] "plan:aapl" 10).2 =
      List.filter (fun pr => pr.1 ≠ "plan:aapl")
        [("plan:aapl", CacheEntry.mk "cached-plan" 5)] ∧
    (getOrCompute (some [("plan:aapl", CacheEntry.mk "cached-plan" 5)])
        "plan:aapl" 10 "live-plan" 60).1 = "live-plan" ∧
    (getOrCompute (none : Option (CacheStore String String))
        "plan:aapl" 10 "live-plan" 60).1 = "live-plan" :=
  cache_expired_miss_evict_unavailable
    [("plan:aapl", CacheEntry.mk "cached-plan" 5)] "plan:aapl"
    ("plan:aapl", CacheEntry.mk "cached-plan" 5) 10 60 "live-plan"
    (by decide) (by decide)

/-- C7 (evaluation at the failing input): a non-streaming error-tagged
response still appends a conversation turn (`page.tsx` lines 183-187 append
unconditionally), while the streaming handler appends nothing on an
`error` event — the code records a turn for a query that terminated with
an error on the non-streaming channel. -/
theorem non_streaming_error_appends_turn :
    errorTaggedResponse.isErrorTagged = true ∧
    (handleNonStreaming "will TSLA beat earnings" none errorTaggedResponse
        initialClientState).conversationHistory =
      [⟨"will TSLA beat earnings", none⟩] ∧
    (processLines "will TSLA beat earnings" none initialClientState
        [ParsedLine.event (StreamEvent.error "All capabilities failed"
          (some "sess-1"))]).conversationHistory = [] :=
  ⟨rfl, rfl, rfl⟩

/-- C8: a deep-research submission with the confirmation dialog not yet
shown sends no request and only shows the dialog; the immediately following
submission (after confirmation) dispatches the deep-research request; and
deep-research routing bypasses the classifier and goes straight to
planning. -/
theorem deep_research_confirm_then_dispatch
    (s : ClientState) (intents : List Intent)
    (extract : String → Option String) (registry : Registry)
    (proposed : List CapCall)
    (hq : ¬ trimString s.query = "")
    (hm : s.mode = Mode.deep_research)
    (hc : s.showDeepResearchConfirm = false) :
    (handleSubmitStart s).2 = none ∧
    (handleSubmitStart s).1.showDeepResearchConfirm = true ∧
    (handleSubmitStart (handleSubmitStart s).1).2 =
      some ⟨s.query, Mode.deep_research, s.sessionId⟩ ∧
    (route intents extract registry Mode.deep_research s.query
        proposed).classifierConsulted = false ∧
    (route intents extract registry Mode.deep_research s.query
        proposed).plannerInvoked = true ∧
    (route intents extract registry Mode.deep_research s.query
        proposed).plan = planFromModel registry s.query proposed := by
  have h1 : handleSubmitStart s = ({ s with showDeepResearchConfirm := true }, none) := by
    unfold handleSubmitStart
    rw [if_neg hq, if_pos ⟨hm, hc⟩]
  have h2 : handleSubmitStart { s with showDeepResearchConfirm := true } =
      (resetForSubmit { s with showDeepResearchConfirm := true },
       some ⟨s.query, s.mode, s.sessionId⟩) := by
    unfold handleSubmitStart
    rw [if_neg hq, if_neg (by simp)]
  refine ⟨by rw [h1], by rw [h1], ?_, rfl, rfl, rfl⟩
  rw [h1, h2, hm]

/-- A concrete client state about to submit a deep-research query with the
confirmation dialog not yet shown. -/
def deepResearchPendingState : ClientState :=
  ⟨"Compare TSLA and F financial performance", Mode.deep_research, false,
   none, "", [], none, [], false⟩

/-- Witness for C8 at `deepResearchPendingState`. -/
theorem deep_research_confirm_then_dispatch_witness :
    (handleSubmitStart deepResearchPendingState).2 = none ∧
    (handleSubmitStart deepResearchPendingState).1.showDeepResearchConfirm = true ∧
    (handleSubmitStart (handleSubmitStart deepResearchPendingState).1).2 =
      some ⟨deepResearchPendingState.query, Mode.deep_research,
            deepResearchPendingState.sessionId⟩ ∧
    (route fastPathIntents extractTicker capabilityRegistry Mode.deep_research
        deepResearchPendingState.query []).classifierConsulted = false ∧
    (route fastPathIntents extractTicker capabilityRegistry Mode.deep_research
        deepResearchPendingState.query []).plannerInvoked = true ∧
    (route fastPathIntents extractTicker capabilityRegistry Mode.deep_research
        deepResearchPendingState.query []).plan =
      planFromModel capabilityRegistry deepResearchPendingState.query [] :=
  deep_research_confirm_then_dispatch deepResearchPendingState fastPathIntents
    extractTicker capabilityRegistry [] (by decide) rfl rfl

/-- C9: a request aborted before its terminal event has the client process
only a terminal-free prefix of the stream: over such a prefix the
conversation history is unchanged (no partial turn is persisted) and the
error state is unchanged; and the `AbortError` catch clause only clears
`loading`, producing no user-visible error message for the abort itself. -/
theorem abort_preserves_history_and_error
    (q : String) (sid0 : Option String) (s : ClientState)
    (ls : List ParsedLine)
    (h : ∀ l ∈ ls, l.isTerminalLine = false) :
    (processLines q sid0 s ls).conversationHistory = s.conversationHistory ∧
    (processLines q sid0 s ls).error = s.error ∧
    handleFetchError true (processLines q sid0 s ls) =
      { processLines q sid0 s ls with loading := false } := by
  refine ⟨?_, ?_, rfl⟩ <;>
  · induction ls generalizing s with
    | nil => rfl
    | cons l ls ih =>
      have hl := h l (List.mem_cons_self l ls)
      have hrest : ∀ l' ∈ ls, l'.isTerminalLine = false :=
        fun l' hl' => h l' (List.mem_cons_of_mem l hl')
      have hstep : (processLine q sid0 s l).conversationHistory =
          s.conversationHistory ∧ (processLine q sid0 s l).error = s.error := by
        cases l with
        | blank => exact ⟨rfl, rfl⟩
        | malformed r => exact ⟨rfl, rfl⟩
        | event e =>
          cases e with
          | status c evSid => exact ⟨rfl, rfl⟩
          | result c srcs evSid =>
            exact absurd hl (by simp [ParsedLine.isTerminalLine,
              StreamEvent.isTerminal, StreamEvent.isResult])
          | error c evSid =>
            exact absurd hl (by simp [ParsedLine.isTerminalLine,
              StreamEvent.isTerminal, StreamEvent.isError])
      calc _ = _ := ih (processLine q sid0 s l) hrest
        _ = _ := by first | exact hstep.1 | exact hstep.2

/-- A client state holding one earlier completed turn, used to exercise
cancellation mid-stream. -/
def midSessionState : ClientState :=
  ⟨"next question", Mode.sonar, true, none, "",
   [], some "sess-1", [⟨"first question", some "first answer"⟩], false⟩

/-- Witness for C9: aborting after a `status` event, a malformed line and a
blank line leaves history and error untouched. -/
theorem abort_preserves_history_and_error_witness :
    (processLines "next question" (some "sess-1") midSessionState
        [ParsedLine.event (StreamEvent.status "Calling provider search" (some "sess-1")),
         ParsedLine.malformed "trunc", ParsedLine.blank]).conversationHistory =
      midSessionState.conversationHistory ∧
    (processLines "next question" (some "sess-1") midSessionState
        [ParsedLine.event (StreamEvent.status "Calling provider search" (some "sess-1")),
         ParsedLine.malformed "trunc", ParsedLine.blank]).error =
      midSessionState.error ∧
    handleFetchError true (processLines "next question" (some "sess-1") midSessionState
        [ParsedLine.event (StreamEvent.status "Calling provider search" (some "sess-1")),
         ParsedLine.malformed "trunc", ParsedLine.blank]) =
      { processLines "next question" (some "sess-1") midSessionState
          [ParsedLine.event (StreamEvent.status "Calling provider search" (some "sess-1")),
           ParsedLine.malformed "trunc", ParsedLine.blank] with loading := false } :=
  abort_preserves_history_and_error "next question" (some "sess-1")
    midSessionState
    [ParsedLine.event (StreamEvent.status "Calling provider search" (some "sess-1")),
     ParsedLine.malformed "trunc", ParsedLine.blank] (by decide)

/-- C10: a non-empty line that fails to parse as JSON leaves the client
state (in particular the user-visible error) unchanged, and processing a
stream containing it equals processing the lines before it and then the
lines after it — stream processing is not terminated and later well-formed
lines are handled normally. -/
theorem malformed_line_ignored
    (q raw : String) (sid0 : Option String) (s : ClientState)
    (pre post : List ParsedLine) :
    processLine q sid0 s (ParsedLine.malformed raw) = s ∧
    (processLine q sid0 s (ParsedLine.malformed raw)).error = s.error ∧
    processLines q sid0 s (pre ++ ParsedLine.malformed raw :: post) =
      processLines q sid0 (processLines q sid0 s pre) post := by
  refine ⟨rfl, rfl, ?_⟩
  unfold processLines
  rw [List.foldl_append]
  rfl
